import Mathlib

/-!
# Verification of the otk-time-systems astronomical time utility

This file gives a shallow embedding, in Lean 4, of the JavaScript sources of
the otk-time-systems repository (`src/constants.js`, `src/conversions.js`,
`src/epoch.js`) and proves or refutes the specification claims about it.

Modelling conventions:
* JavaScript `number` values are modelled by `ℚ`; every numeric literal in the
  source is an exact decimal, so the embedded arithmetic is exact where the
  source arithmetic is float64.  `Math.floor` is modelled by `Int.floor`.
* A JavaScript number that may be `NaN` is modelled by `Option ℚ`
  (`none` = `NaN`); `NaN` propagation through arithmetic is the `Option` bind.
* JavaScript strings are modelled by `List Char` (`JSStr`); `String.split`,
  `padStart`, `replace`, `toFixed` and numeric `toString` are modelled by
  executable functions on `List Char` below.
* A constructor that can throw is modelled by `Except String`; the error
  string names the JavaScript error that the corresponding step raises.
-/

namespace OtkTime

/-! ## Constants (src/constants.js)

The field `TT_MINUS_UTC` reproduces the source exactly: note that
`TT_MINUS_TAI` and `TAI_MINUS_UTC` are already converted to day units, and the
source multiplies their sum by `SECONDS_TO_DAYS` a second time. -/

def DAYS_TO_HOURS : ℚ := 24

def HOURS_TO_MINUTES : ℚ := 60

def MINUTES_TO_SECONDS : ℚ := 60

def SECONDS_TO_MINUTES : ℚ := 1 / MINUTES_TO_SECONDS

def MINUTES_TO_HOURS : ℚ := 1 / HOURS_TO_MINUTES

def HOURS_TO_DAYS : ℚ := 1 / DAYS_TO_HOURS

def DAYS_TO_SECONDS : ℚ := 86400

def SECONDS_TO_DAYS : ℚ := 1 / DAYS_TO_SECONDS

def DAYS_IN_JULIAN_CENTURY : ℚ := 36525

def MJD_ZERO : ℚ := 2400000.5

def J2000 : ℚ := 2451545.0

/-- Written `JD_RECIPROCAL_1` in constants.js and imported as
`JD_RECIPPROCAL_1` by conversions.js; the value is what matters here. -/
def JD_RECIPROCAL_1 : ℚ := 1 / 36524.25

def JD_RECIPROCAL_2 : ℚ := 1 / 365.25

def JD_RECIPROCAL_3 : ℚ := 1 / 30.6001

def JD_RECIPROCAL_4 : ℚ := 1 / DAYS_IN_JULIAN_CENTURY

def TT_MINUS_TAI : ℚ := 32.184 * SECONDS_TO_DAYS

def TAI_MINUS_UTC : ℚ := 37 * SECONDS_TO_DAYS

def TT_MINUS_UTC : ℚ := (TT_MINUS_TAI + TAI_MINUS_UTC) * SECONDS_TO_DAYS

/-! ## Unit conversions (src/conversions.js) -/

def secondsToMinutes (seconds : ℚ) : ℚ := seconds * SECONDS_TO_MINUTES

def minutesToSeconds (minutes : ℚ) : ℚ := minutes * MINUTES_TO_SECONDS

def minutesToHours (minutes : ℚ) : ℚ := minutes * MINUTES_TO_HOURS

def hoursToMinutes (hours : ℚ) : ℚ := hours * HOURS_TO_MINUTES

def hoursToDays (hours : ℚ) : ℚ := hours * HOURS_TO_DAYS

def daysToHours (days : ℚ) : ℚ := days * DAYS_TO_HOURS

def daysToMinutes (days : ℚ) : ℚ := hoursToMinutes (daysToHours days)

def minutesToDays (minutes : ℚ) : ℚ := hoursToDays (minutesToHours minutes)

def daysToSeconds (days : ℚ) : ℚ := minutesToSeconds (daysToMinutes days)

def secondsToDays (seconds : ℚ) : ℚ := minutesToDays (secondsToMinutes seconds)

def hoursToSeconds (hours : ℚ) : ℚ := minutesToSeconds (hoursToMinutes hours)

def secondsToHours (seconds : ℚ) : ℚ := minutesToHours (secondsToMinutes seconds)

def hmsToDays (hours minutes seconds : ℚ) : ℚ :=
  hoursToDays hours + minutesToDays minutes + secondsToDays seconds

/-- Result record of `daysToHMS`.  In the source `hours` and `minutes` are
`Math.floor` results, hence integer-valued numbers; they are embedded as `ℤ`. -/
structure HMS where
  hours : ℤ
  minutes : ℤ
  seconds : ℚ
  deriving DecidableEq, Repr

def daysToHMS (days : ℚ) : HMS :=
  let completeHrs := daysToHours days
  let hours := ⌊completeHrs⌋
  let completeMins := hoursToMinutes (completeHrs - hours)
  let minutes := ⌊completeMins⌋
  let seconds := minutesToSeconds (completeMins - minutes)
  ⟨hours, minutes, seconds⟩

/-! ## Calendar and Julian conversions (src/conversions.js) -/

def calendarToJulian (yr month day hour minute second : ℚ) : ℚ :=
  let y := if month < 3 then yr - 1 else yr
  let m := if month < 3 then month + 12 else month
  let a := ⌊y * 0.01⌋
  let b := 2 - (a : ℚ) + (⌊(a : ℚ) * 0.25⌋ : ℚ)
  let jd := b + (⌊(365.25 : ℚ) * y⌋ : ℚ) + (⌊(30.6001 : ℚ) * (m + 1)⌋ : ℚ) +
    day + 1720994.5
  jd + hmsToDays hour minute second

/-- Result record of `julianToCalendar`.  `year`, `month` and `day` are
integer-valued in the source (`day` is a `Math.floor` result); `hour` and
`minute` come from `daysToHMS`, `second` may be fractional. -/
structure CalendarDate where
  year : ℤ
  month : ℤ
  day : ℤ
  hour : ℤ
  minute : ℤ
  second : ℚ
  deriving DecidableEq, Repr

def julianToCalendar (jd : ℚ) : CalendarDate :=
  let jd1 := jd + 0.5
  let i := ⌊jd1⌋
  let f := jd1 - (i : ℚ)
  let b := if i > 2299160 then
      let a := ⌊((i : ℚ) - 1867216.25) * JD_RECIPROCAL_1⌋
      i + 1 + a - ⌊(a : ℚ) * 0.25⌋
    else i
  let c := b + 1524
  let d := ⌊((c : ℚ) - 122.1) * JD_RECIPROCAL_2⌋
  let e := ⌊(365.25 : ℚ) * (d : ℚ)⌋
  let g := ⌊((c : ℚ) - (e : ℚ)) * JD_RECIPROCAL_3⌋
  let day : ℚ := (c : ℚ) - (e : ℚ) + f - (⌊(30.6001 : ℚ) * (g : ℚ)⌋ : ℚ)
  let month := if (g : ℚ) > 13.5 then g - 1 - 12 else g - 1
  let year := if (month : ℚ) < 2.5 then d - 4716 + 1 else d - 4716
  let time := daysToHMS (day - (⌊day⌋ : ℚ))
  ⟨year, month, ⌊day⌋, time.hours, time.minutes, time.seconds⟩

def julianToMJD (jd : ℚ) : ℚ := jd - MJD_ZERO

def julianUTCtoTT (jd : ℚ) : ℚ := jd + TT_MINUS_UTC

def julianTTtoUTC (jd : ℚ) : ℚ := jd - TT_MINUS_UTC

/-! ## The Epoch value object (src/epoch.js) -/

structure Epoch where
  julianTT : ℚ
  deriving DecidableEq, Repr

def Epoch.fromJulianTT (julianTT : ℚ) : Epoch := ⟨julianTT⟩

def Epoch.copy (e : Epoch) : Epoch := Epoch.fromJulianTT e.julianTT

def Epoch.plusDays (e : Epoch) (days : ℚ) : Epoch :=
  Epoch.fromJulianTT (e.julianTT + days)

def Epoch.getJulianCenturiesPastJ2000 (e : Epoch) : ℚ :=
  (e.julianTT - J2000) * JD_RECIPROCAL_4

/-! ## JavaScript string model

JS strings are embedded as `List Char`.  The operations used by `epoch.js`
(`String.prototype.split` with a one-character separator, `padStart`,
`replace` with a one-character pattern and empty replacement, numeric
`toString` and `toFixed(3)`, and `Number.parseFloat`) are modelled by the
executable functions below. -/

abbrev JSStr := List Char

/-- `s.split(sep)` for a one-character separator, as in JavaScript:
always returns at least one (possibly empty) piece. -/
def splitOnChar (sep : Char) : JSStr → List JSStr
  | [] => [[]]
  | c :: cs =>
    if c = sep then [] :: splitOnChar sep cs
    else
      match splitOnChar sep cs with
      | [] => [[c]]
      | h :: t => (c :: h) :: t

/-- `s.padStart(w, c)`: left-pad to length `w`; a longer string is returned
unchanged (`w - length = 0`). -/
def padStart (w : ℕ) (c : Char) (s : JSStr) : JSStr :=
  List.replicate (w - s.length) c ++ s

/-- `s.replace(pat, '')` for a one-character pattern: removes the first
occurrence only, as in JavaScript. -/
def replaceFirst (pat : Char) : JSStr → JSStr
  | [] => []
  | c :: cs => if c = pat then cs else c :: replaceFirst pat cs

/-- The decimal digit characters. -/
def digitChar (n : ℕ) : Char :=
  match n with
  | 0 => '0' | 1 => '1' | 2 => '2' | 3 => '3' | 4 => '4'
  | 5 => '5' | 6 => '6' | 7 => '7' | 8 => '8' | _ => '9'

/-- Decimal digits of `n`, fuelled structural recursion (one unit of fuel per
digit, so `n + 1` is always enough). -/
def natToDigitsCore : ℕ → ℕ → JSStr
  | 0, _ => []
  | fuel + 1, n =>
    if n < 10 then [digitChar n]
    else natToDigitsCore fuel (n / 10) ++ [digitChar (n % 10)]

/-- Decimal representation of a natural number, as JavaScript
`Number.prototype.toString` prints an integer-valued number. -/
def natToDigits (n : ℕ) : JSStr := natToDigitsCore (n + 1) n

/-- JavaScript `toString()` of an integer-valued number. -/
def jsIntToString (i : ℤ) : JSStr :=
  if i < 0 then '-' :: natToDigits i.natAbs else natToDigits i.toNat

/-- Shared magnitude part of `toFixed3` (argument assumed nonnegative). -/
def toFixed3Abs (q : ℚ) : JSStr :=
  let n := (⌊q * 1000 + 1/2⌋).toNat
  natToDigits (n / 1000) ++ '.' :: padStart 3 '0' (natToDigits (n % 1000))

/-- JavaScript `x.toFixed(3)`: round to the nearest multiple of `1/1000`
(ties toward the larger value, per ECMA-262) and print with exactly three
fraction digits; a negative value is printed as the sign followed by the
formatted magnitude. -/
def toFixed3 (q : ℚ) : JSStr :=
  if q < 0 then '-' :: toFixed3Abs (-q) else toFixed3Abs q

/-- `Epoch.prototype.toString` (src/epoch.js lines 75-84). -/
def Epoch.toString (e : Epoch) : JSStr :=
  let dateTime := julianToCalendar (julianTTtoUTC e.julianTT)
  let yyyy := padStart 4 '0' (jsIntToString dateTime.year)
  let mm := padStart 2 '0' (jsIntToString dateTime.month)
  let dd := padStart 2 '0' (jsIntToString dateTime.day)
  let hh := padStart 2 '0' (jsIntToString dateTime.hour)
  let mins := padStart 2 '0' (jsIntToString dateTime.minute)
  let ss := padStart 6 '0' (toFixed3 dateTime.second)
  yyyy ++ '-' :: mm ++ '-' :: dd ++ 'T' :: hh ++ ':' :: mins ++ ':' :: ss ++ ['Z']

/-! ## Number.parseFloat and the Epoch string constructor -/

def parseDigit (c : Char) : Option ℕ :=
  if c = '0' then some 0 else if c = '1' then some 1
  else if c = '2' then some 2 else if c = '3' then some 3
  else if c = '4' then some 4 else if c = '5' then some 5
  else if c = '6' then some 6 else if c = '7' then some 7
  else if c = '8' then some 8 else if c = '9' then some 9
  else none

/-- Munch leading decimal digits: returns the accumulated value, the number of
digits consumed, and the rest of the string. -/
def takeDigitsAux : JSStr → ℕ → ℕ → ℕ × ℕ × JSStr
  | [], acc, cnt => (acc, cnt, [])
  | c :: cs, acc, cnt =>
    match parseDigit c with
    | some d => takeDigitsAux cs (acc * 10 + d) (cnt + 1)
    | none => (acc, cnt, c :: cs)

/-- `Number.parseFloat`, restricted to the grammar
`[+-] digits [. digits] rest` actually exercised by `epoch.js` inputs
(no exponents, no Infinity, no leading whitespace); trailing garbage is
ignored, and `none` models the `NaN` result when no digits can be read. -/
def parseFloatJS (s : JSStr) : Option ℚ :=
  let sgn : ℚ × JSStr :=
    match s with
    | [] => (1, [])
    | c :: t => if c = '-' then (-1, t) else if c = '+' then (1, t) else (1, s)
  let ip := takeDigitsAux sgn.2 0 0
  match ip.2.2 with
  | '.' :: t =>
    let fp := takeDigitsAux t 0 0
    if ip.2.1 = 0 ∧ fp.2.1 = 0 then none
    else some (sgn.1 * ((ip.1 : ℚ) + (fp.1 : ℚ) / 10 ^ fp.2.1))
  | _ => if ip.2.1 = 0 then none else some (sgn.1 * (ip.1 : ℚ))

/-- `Number.parseFloat(arr[i])` where `arr[i]` may be `undefined`:
`parseFloat(undefined)` is `NaN` (modelled `none`), it does not throw. -/
def parseFloatAt (arr : List JSStr) (i : ℕ) : Option ℚ :=
  match arr.get? i with
  | some s => parseFloatJS s
  | none => none

/-- The `Epoch` constructor (src/epoch.js lines 26-40).

`Except.error` models the `TypeError` thrown when `dateTimeArray[1]` or
`timeArray[2]` is `undefined` (`undefined.split` / `undefined.replace`).
The payload `Option ℚ` is the stored `julianTT`: `none` models an Epoch
whose `julianTT` is `NaN`.  `NaN` propagation is faithful here because every
parsed component occurs additively (possibly under `Math.floor`) in
`julianUTCtoTT(calendarToJulian(...))`, so the result is `NaN` exactly when
some component is `NaN`. -/
def epochJulianTTFromString (s : JSStr) : Except String (Option ℚ) :=
  let dateTimeArray := splitOnChar 'T' s
  let dateArray := splitOnChar '-' (dateTimeArray.getD 0 [])
  match dateTimeArray.get? 1 with
  | none => Except.error "TypeError: undefined has no method split"
  | some timeStr =>
    let timeArray := splitOnChar ':' timeStr
    match timeArray.get? 2 with
    | none => Except.error "TypeError: undefined has no method replace"
    | some secRaw =>
      Except.ok (do
        let y ← parseFloatAt dateArray 0
        let mo ← parseFloatAt dateArray 1
        let d ← parseFloatAt dateArray 2
        let h ← parseFloatAt timeArray 0
        let mi ← parseFloatAt timeArray 1
        let sec ← parseFloatJS (replaceFirst 'Z' secRaw)
        pure (julianUTCtoTT (calendarToJulian y mo d h mi sec)))

/-- The canonical ISO string `YYYY-MM-DDTHH:MM:SS.mmmZ` built with the same
padding operations `Epoch.toString` uses.  The set of valid ISO strings of
this shape is exactly the image of this function on in-range components. -/
def isoFormat (y mo d h mi s ms : ℕ) : JSStr :=
  padStart 4 '0' (natToDigits y) ++ '-' :: padStart 2 '0' (natToDigits mo) ++
    '-' :: padStart 2 '0' (natToDigits d) ++ 'T' :: padStart 2 '0' (natToDigits h) ++
    ':' :: padStart 2 '0' (natToDigits mi) ++
    ':' :: (padStart 2 '0' (natToDigits s) ++ '.' :: padStart 3 '0' (natToDigits ms)) ++ ['Z']

/-! ## Basic floor arithmetic lemmas -/

lemma floorQ_div (x : ℚ) (a : ℤ) (d : ℕ) (hd : 0 < d) (hx : x * (d : ℚ) = (a : ℚ)) :
    ⌊x⌋ = a / (d : ℤ) := by
  have hd0 : (d : ℚ) ≠ 0 := by positivity
  rw [(eq_div_iff hd0).mpr hx, Rat.floor_intCast_div_natCast]

lemma floor_intCast_add_fract (k : ℤ) (f : ℚ) (h0 : 0 ≤ f) (h1 : f < 1) :
    ⌊(k : ℚ) + f⌋ = k := by
  rw [add_comm, Int.floor_add_int, Int.floor_eq_zero_iff.2 ⟨h0, h1⟩, zero_add]

lemma sub_floor_range (x : ℚ) : 0 ≤ x - (⌊x⌋ : ℚ) ∧ x - (⌊x⌋ : ℚ) < 1 :=
  ⟨by linarith [Int.floor_le x], by linarith [Int.lt_floor_add_one x]⟩

/-! ## Lemmas about the HMS conversions -/

lemma hmsToDays_eq (h m s : ℚ) : hmsToDays h m s = h / 24 + m / 1440 + s / 86400 := by
  simp only [hmsToDays, hoursToDays, minutesToDays, secondsToDays, minutesToHours,
    secondsToMinutes, hoursToMinutes, minutesToSeconds, daysToMinutes, daysToHours,
    HOURS_TO_DAYS, DAYS_TO_HOURS, MINUTES_TO_HOURS, HOURS_TO_MINUTES,
    SECONDS_TO_MINUTES, MINUTES_TO_SECONDS]
  ring

lemma daysToHMS_def (x : ℚ) : daysToHMS x =
    ⟨⌊x * 24⌋, ⌊(x * 24 - (⌊x * 24⌋ : ℚ)) * 60⌋,
     ((x * 24 - (⌊x * 24⌋ : ℚ)) * 60 - (⌊(x * 24 - (⌊x * 24⌋ : ℚ)) * 60⌋ : ℚ)) * 60⟩ := by
  simp only [daysToHMS, daysToHours, hoursToMinutes, minutesToSeconds,
    DAYS_TO_HOURS, HOURS_TO_MINUTES, MINUTES_TO_SECONDS]

lemma daysToHMS_hmsToDays (h mi : ℤ) (s : ℚ) (hmi0 : 0 ≤ mi) (hmi1 : mi ≤ 59)
    (hs0 : 0 ≤ s) (hs1 : s < 60) :
    daysToHMS (hmsToDays (h : ℚ) (mi : ℚ) s) = ⟨h, mi, s⟩ := by
  have key : hmsToDays (h : ℚ) (mi : ℚ) s * 24 = (h : ℚ) + ((mi : ℚ) * 60 + s) / 3600 := by
    rw [hmsToDays_eq]; ring
  have hfrac0 : 0 ≤ ((mi : ℚ) * 60 + s) / 3600 := by positivity
  have hfrac1 : ((mi : ℚ) * 60 + s) / 3600 < 1 := by
    have : (mi : ℚ) ≤ 59 := by exact_mod_cast hmi1
    rw [div_lt_one (by norm_num)]; linarith
  have hfl1 : ⌊hmsToDays (h : ℚ) (mi : ℚ) s * 24⌋ = h := by
    rw [key]; exact floor_intCast_add_fract h _ hfrac0 hfrac1
  have hs60 : s / 60 < 1 := by rw [div_lt_one (by norm_num)]; exact hs1
  rw [daysToHMS_def, hfl1]
  have key2 : (hmsToDays (h : ℚ) (mi : ℚ) s * 24 - (h : ℚ)) * 60 = (mi : ℚ) + s / 60 := by
    rw [key]; ring
  have hfl2 : ⌊(hmsToDays (h : ℚ) (mi : ℚ) s * 24 - (h : ℚ)) * 60⌋ = mi := by
    rw [key2]; exact floor_intCast_add_fract mi _ (by positivity) hs60
  rw [hfl2, key2]
  simp only [HMS.mk.injEq, true_and]
  ring

lemma hmsToDays_daysToHMS (x : ℚ) :
    hmsToDays ((daysToHMS x).hours : ℚ) ((daysToHMS x).minutes : ℚ)
      (daysToHMS x).seconds = x := by
  rw [daysToHMS_def, hmsToDays_eq]
  push_cast
  ring

lemma daysToHMS_range (x : ℚ) (h0 : 0 ≤ x) (h1 : x < 1) :
    0 ≤ (daysToHMS x).hours ∧ (daysToHMS x).hours ≤ 23 ∧
    0 ≤ (daysToHMS x).minutes ∧ (daysToHMS x).minutes ≤ 59 ∧
    0 ≤ (daysToHMS x).seconds ∧ (daysToHMS x).seconds < 60 := by
  rw [daysToHMS_def]
  have hu0 : (0 : ℚ) ≤ x * 24 := by positivity
  have hu1 : x * 24 < 24 := by linarith
  have hh0 : 0 ≤ ⌊x * 24⌋ := Int.floor_nonneg.2 hu0
  have hh1 : ⌊x * 24⌋ ≤ 23 := by
    have : ⌊x * 24⌋ < 24 := Int.floor_lt.2 (by exact_mod_cast hu1)
    omega
  have hm0 : (0 : ℚ) ≤ (x * 24 - (⌊x * 24⌋ : ℚ)) * 60 := by
    have := (sub_floor_range (x * 24)).1; linarith
  have hm1 : (x * 24 - (⌊x * 24⌋ : ℚ)) * 60 < 60 := by
    have := (sub_floor_range (x * 24)).2; linarith
  have hmi0 : 0 ≤ ⌊(x * 24 - (⌊x * 24⌋ : ℚ)) * 60⌋ := Int.floor_nonneg.2 hm0
  have hmi1 : ⌊(x * 24 - (⌊x * 24⌋ : ℚ)) * 60⌋ ≤ 59 := by
    have : ⌊(x * 24 - (⌊x * 24⌋ : ℚ)) * 60⌋ < 60 := Int.floor_lt.2 (by exact_mod_cast hm1)
    omega
  have hsec0 : (0 : ℚ) ≤ ((x * 24 - (⌊x * 24⌋ : ℚ)) * 60 -
      (⌊(x * 24 - (⌊x * 24⌋ : ℚ)) * 60⌋ : ℚ)) * 60 := by
    have := (sub_floor_range ((x * 24 - (⌊x * 24⌋ : ℚ)) * 60)).1; linarith
  have hsec1 : ((x * 24 - (⌊x * 24⌋ : ℚ)) * 60 -
      (⌊(x * 24 - (⌊x * 24⌋ : ℚ)) * 60⌋ : ℚ)) * 60 < 60 := by
    have := (sub_floor_range ((x * 24 - (⌊x * 24⌋ : ℚ)) * 60)).2; linarith
  exact ⟨hh0, hh1, hmi0, hmi1, hsec0, hsec1⟩

/-! ## A step-by-step evaluation lemma for julianToCalendar -/

/-- Evaluates `julianToCalendar jd` given the values of all its intermediate
quantities; used both for concrete Julian dates and for the symbolic
round-trip proof. -/
lemma julianToCalendar_build (jd : ℚ) (i b c d e g M : ℤ) (f : ℚ)
    (hi : ⌊jd + 0.5⌋ = i)
    (hf : jd + 0.5 - (i : ℚ) = f) (hf0 : 0 ≤ f) (hf1 : f < 1)
    (hb : (if i > 2299160 then
        i + 1 + ⌊((i : ℚ) - 1867216.25) * JD_RECIPROCAL_1⌋ -
          ⌊(⌊((i : ℚ) - 1867216.25) * JD_RECIPROCAL_1⌋ : ℚ) * 0.25⌋
      else i) = b)
    (hc : b + 1524 = c)
    (hd : ⌊((c : ℚ) - 122.1) * JD_RECIPROCAL_2⌋ = d)
    (he : ⌊(365.25 : ℚ) * (d : ℚ)⌋ = e)
    (hg : ⌊((c : ℚ) - (e : ℚ)) * JD_RECIPROCAL_3⌋ = g)
    (hM : ⌊(30.6001 : ℚ) * (g : ℚ)⌋ = M) :
    julianToCalendar jd =
      ⟨(if (((if (g : ℚ) > 13.5 then g - 1 - 12 else g - 1) : ℤ) : ℚ) < 2.5
          then d - 4716 + 1 else d - 4716),
       (if (g : ℚ) > 13.5 then g - 1 - 12 else g - 1), c - e - M,
       (daysToHMS f).hours, (daysToHMS f).minutes, (daysToHMS f).seconds⟩ := by
  simp only [julianToCalendar, hi, hf, hb, hc, hd, he, hg, hM]
  have hday : (c : ℚ) - (e : ℚ) + f - (M : ℚ) = ((c - e - M : ℤ) : ℚ) + f := by
    push_cast; ring
  rw [hday, floor_intCast_add_fract _ _ hf0 hf1, add_sub_cancel_left]

/-- Evaluates `calendarToJulian` given the values of its intermediate
quantities. -/
lemma calendarToJulian_build (yr month day hour minute second y m : ℚ)
    (a a4 L Mv : ℤ) (hms : ℚ)
    (hy : (if month < 3 then yr - 1 else yr) = y)
    (hm : (if month < 3 then month + 12 else month) = m)
    (ha : ⌊y * 0.01⌋ = a) (ha4 : ⌊(a : ℚ) * 0.25⌋ = a4)
    (hL : ⌊(365.25 : ℚ) * y⌋ = L) (hMv : ⌊(30.6001 : ℚ) * (m + 1)⌋ = Mv)
    (hhms : hmsToDays hour minute second = hms) :
    calendarToJulian yr month day hour minute second =
      2 - (a : ℚ) + (a4 : ℚ) + (L : ℚ) + (Mv : ℚ) + day + 1720994.5 + hms := by
  simp only [calendarToJulian, hy, hm, ha, ha4, hL, hMv, hhms]

/-- The Julian branch of `julianToCalendar` (the else-branch of the cutover
test, `b = i`), extracted from the source for the branch-selection claim. -/
def julianToCalendarJulianBranch (jd : ℚ) : CalendarDate :=
  let jd1 := jd + 0.5
  let i := ⌊jd1⌋
  let f := jd1 - (i : ℚ)
  let b := i
  let c := b + 1524
  let d := ⌊((c : ℚ) - 122.1) * JD_RECIPROCAL_2⌋
  let e := ⌊(365.25 : ℚ) * (d : ℚ)⌋
  let g := ⌊((c : ℚ) - (e : ℚ)) * JD_RECIPROCAL_3⌋
  let day : ℚ := (c : ℚ) - (e : ℚ) + f - (⌊(30.6001 : ℚ) * (g : ℚ)⌋ : ℚ)
  let month := if (g : ℚ) > 13.5 then g - 1 - 12 else g - 1
  let year := if (month : ℚ) < 2.5 then d - 4716 + 1 else d - 4716
  let time := daysToHMS (day - (⌊day⌋ : ℚ))
  ⟨year, month, ⌊day⌋, time.hours, time.minutes, time.seconds⟩

/-- The Gregorian branch of `julianToCalendar` (the then-branch of the
cutover test, with the century correction applied unconditionally). -/
def julianToCalendarGregorianBranch (jd : ℚ) : CalendarDate :=
  let jd1 := jd + 0.5
  let i := ⌊jd1⌋
  let f := jd1 - (i : ℚ)
  let a := ⌊((i : ℚ) - 1867216.25) * JD_RECIPROCAL_1⌋
  let b := i + 1 + a - ⌊(a : ℚ) * 0.25⌋
  let c := b + 1524
  let d := ⌊((c : ℚ) - 122.1) * JD_RECIPROCAL_2⌋
  let e := ⌊(365.25 : ℚ) * (d : ℚ)⌋
  let g := ⌊((c : ℚ) - (e : ℚ)) * JD_RECIPROCAL_3⌋
  let day : ℚ := (c : ℚ) - (e : ℚ) + f - (⌊(30.6001 : ℚ) * (g : ℚ)⌋ : ℚ)
  let month := if (g : ℚ) > 13.5 then g - 1 - 12 else g - 1
  let year := if (month : ℚ) < 2.5 then d - 4716 + 1 else d - 4716
  let time := daysToHMS (day - (⌊day⌋ : ℚ))
  ⟨year, month, ⌊day⌋, time.hours, time.minutes, time.seconds⟩

lemma julianToCalendar_of_le (jd : ℚ) (h : ⌊jd + 0.5⌋ ≤ 2299160) :
    julianToCalendar jd = julianToCalendarJulianBranch jd := by
  simp only [julianToCalendar, julianToCalendarJulianBranch]
  rw [if_neg (show ¬(⌊jd + 0.5⌋ > 2299160) by omega)]

lemma julianToCalendar_of_gt (jd : ℚ) (h : 2299160 < ⌊jd + 0.5⌋) :
    julianToCalendar jd = julianToCalendarGregorianBranch jd := by
  simp only [julianToCalendar, julianToCalendarGregorianBranch]
  rw [if_pos h]

/-! ## Concrete evaluations at the Gregorian cutover -/

lemma hmsToDays_12_0_0 : hmsToDays 12 0 0 = 1/2 := by
  rw [hmsToDays_eq]; norm_num

lemma daysToHMS_half : daysToHMS ((1 : ℚ)/2) = ⟨12, 0, 0⟩ := by
  have h : ((1 : ℚ)/2) = hmsToDays ((12 : ℤ) : ℚ) ((0 : ℤ) : ℚ) 0 := by
    rw [hmsToDays_eq]; norm_num
  rw [h]
  exact daysToHMS_hmsToDays 12 0 0 (by norm_num) (by norm_num) le_rfl (by norm_num)

lemma julianToCalendar_2299160 : julianToCalendar 2299160 = ⟨1582, 10, 4, 12, 0, 0⟩ := by
  have h := julianToCalendar_build 2299160 2299160 2299160 2300684 6298 2300344 11 336 (1/2)
    (Int.floor_eq_iff.2 (by norm_num))
    (by push_cast; norm_num) (by norm_num) (by norm_num)
    (by rw [if_neg (show ¬((2299160 : ℤ) > 2299160) by norm_num)])
    (by norm_num)
    (Int.floor_eq_iff.2 (by unfold JD_RECIPROCAL_2; push_cast; norm_num))
    (Int.floor_eq_iff.2 (by push_cast; norm_num))
    (Int.floor_eq_iff.2 (by unfold JD_RECIPROCAL_3; push_cast; norm_num))
    (Int.floor_eq_iff.2 (by push_cast; norm_num))
  rw [h, daysToHMS_half]
  norm_num

lemma julianToCalendar_2299161 : julianToCalendar 2299161 = ⟨1582, 10, 15, 12, 0, 0⟩ := by
  have ha : ⌊(((2299161 : ℤ) : ℚ) - 1867216.25) * JD_RECIPROCAL_1⌋ = 11 :=
    Int.floor_eq_iff.2 (by unfold JD_RECIPROCAL_1; push_cast; norm_num)
  have h := julianToCalendar_build 2299161 2299161 2299171 2300695 6298 2300344 11 336 (1/2)
    (Int.floor_eq_iff.2 (by norm_num))
    (by push_cast; norm_num) (by norm_num) (by norm_num)
    (by
      rw [if_pos (show (2299161 : ℤ) > 2299160 by norm_num), ha]
      rw [show ⌊((11 : ℤ) : ℚ) * 0.25⌋ = 2 from Int.floor_eq_iff.2 (by push_cast; norm_num)]
      norm_num)
    (by norm_num)
    (Int.floor_eq_iff.2 (by unfold JD_RECIPROCAL_2; push_cast; norm_num))
    (Int.floor_eq_iff.2 (by push_cast; norm_num))
    (Int.floor_eq_iff.2 (by unfold JD_RECIPROCAL_3; push_cast; norm_num))
    (Int.floor_eq_iff.2 (by push_cast; norm_num))
  rw [h, daysToHMS_half]
  norm_num

lemma calendarToJulian_1582_10_4 : calendarToJulian 1582 10 4 12 0 0 = 2299150 := by
  have h := calendarToJulian_build 1582 10 4 12 0 0 1582 10 15 3 577825 336 (1/2)
    (if_neg (by norm_num)) (if_neg (by norm_num))
    (Int.floor_eq_iff.2 (by norm_num))
    (Int.floor_eq_iff.2 (by push_cast; norm_num))
    (Int.floor_eq_iff.2 (by norm_num))
    (Int.floor_eq_iff.2 (by norm_num))
    hmsToDays_12_0_0
  rw [h]; push_cast; norm_num

lemma calendarToJulian_1582_10_15 : calendarToJulian 1582 10 15 12 0 0 = 2299161 := by
  have h := calendarToJulian_build 1582 10 15 12 0 0 1582 10 15 3 577825 336 (1/2)
    (if_neg (by norm_num)) (if_neg (by norm_num))
    (Int.floor_eq_iff.2 (by norm_num))
    (Int.floor_eq_iff.2 (by push_cast; norm_num))
    (Int.floor_eq_iff.2 (by norm_num))
    (Int.floor_eq_iff.2 (by norm_num))
    hmsToDays_12_0_0
  rw [h]; push_cast; norm_num

/-! ## Greenwich Mean Sidereal Time (modelled from the spec) -/

/-- Mathematical (always nonnegative) reduction modulo 360, as required by
spec section 4.3 for the GMST degree value. -/
def mod360 (x : ℚ) : ℚ := x - 360 * (⌊x / 360⌋ : ℚ)

lemma mod360_range (x : ℚ) : 0 ≤ mod360 x ∧ mod360 x < 360 := by
  unfold mod360
  have h1 : (⌊x / 360⌋ : ℚ) * 360 ≤ x :=
    (le_div_iff₀ (by norm_num : (0 : ℚ) < 360)).1 (Int.floor_le (x / 360))
  have h2 : x < ((⌊x / 360⌋ : ℚ) + 1) * 360 :=
    (div_lt_iff₀ (by norm_num : (0 : ℚ) < 360)).1 (Int.lt_floor_add_one (x / 360))
  constructor <;> linarith

/-- Modelled from the spec: the source file defining the Greenwich Mean
Sidereal Time method of `Epoch` is not under src/ (only spec section 4.3
describes it).  Following the spec words: convert TT to UTC, then to Modified
Julian Date; split into the integer Julian-day part and the fractional day;
apply the IAU polynomial `100.4606184 + 36000.77004 T + 0.000387933 T^2`
degrees (in Julian centuries `T` of the 0h point) plus
`360.98564724 * fractional_day`; reduce modulo 360 with a mathematical,
nonnegative-result modulo.  The final degree-to-radian conversion
(`degrees * pi / 180`, an external import per spec section 6) is applied in
the theorem statement. -/
def Epoch.gmstDegrees (e : Epoch) : ℚ :=
  let mjd := julianToMJD (julianTTtoUTC e.julianTT)
  let mjdInt := ⌊mjd⌋
  let dayFrac := mjd - (mjdInt : ℚ)
  let t := ((mjdInt : ℚ) + MJD_ZERO - J2000) * JD_RECIPROCAL_4
  mod360 (100.4606184 + 36000.77004 * t + 0.000387933 * t ^ 2 + 360.98564724 * dayFrac)

/-! ## Digit characters and decimal printing -/

lemma digitChar_ne_T (n : ℕ) : digitChar n ≠ 'T' := by
  unfold digitChar; split <;> decide

lemma digitChar_ne_dash (n : ℕ) : digitChar n ≠ '-' := by
  unfold digitChar; split <;> decide

lemma digitChar_ne_colon (n : ℕ) : digitChar n ≠ ':' := by
  unfold digitChar; split <;> decide

lemma digitChar_ne_dot (n : ℕ) : digitChar n ≠ '.' := by
  unfold digitChar; split <;> decide

lemma digitChar_ne_Z (n : ℕ) : digitChar n ≠ 'Z' := by
  unfold digitChar; split <;> decide

lemma digitChar_ne_plus (n : ℕ) : digitChar n ≠ '+' := by
  unfold digitChar; split <;> decide

lemma parseDigit_digitChar (n : ℕ) (h : n < 10) : parseDigit (digitChar n) = some n := by
  interval_cases n <;> decide

lemma natToDigitsCore_small (fuel n : ℕ) (hf : 0 < fuel) (h : n < 10) :
    natToDigitsCore fuel n = [digitChar n] := by
  cases fuel with
  | zero => omega
  | succ f => simp [natToDigitsCore, h]

lemma natToDigitsCore_step (fuel n : ℕ) (h : ¬ n < 10) :
    natToDigitsCore (fuel + 1) n = natToDigitsCore fuel (n / 10) ++ [digitChar (n % 10)] := by
  simp [natToDigitsCore, h]

lemma natToDigits_lt_10 (n : ℕ) (h : n < 10) : natToDigits n = [digitChar n] :=
  natToDigitsCore_small (n + 1) n (by omega) h

lemma natToDigits_lt_100 (n : ℕ) (h1 : 10 ≤ n) (h2 : n < 100) :
    natToDigits n = [digitChar (n / 10), digitChar (n % 10)] := by
  unfold natToDigits
  rw [natToDigitsCore_step (n := n) n (by omega),
    natToDigitsCore_small n (n / 10) (by omega) (by omega)]
  rfl

lemma natToDigits_lt_1000 (n : ℕ) (h1 : 100 ≤ n) (h2 : n < 1000) :
    natToDigits n = [digitChar (n / 100), digitChar (n / 10 % 10), digitChar (n % 10)] := by
  unfold natToDigits
  obtain ⟨m, rfl⟩ : ∃ m, n = m + 1 := ⟨n - 1, by omega⟩
  rw [natToDigitsCore_step (n := m + 1) (m + 1) (by omega),
    natToDigitsCore_step (n := (m + 1) / 10) m (by omega),
    natToDigitsCore_small m ((m + 1) / 10 / 10) (by omega) (by omega),
    Nat.div_div_eq_div_mul]
  rfl

lemma natToDigits_lt_10000 (n : ℕ) (h1 : 1000 ≤ n) (h2 : n < 10000) :
    natToDigits n = [digitChar (n / 1000), digitChar (n / 100 % 10),
      digitChar (n / 10 % 10), digitChar (n % 10)] := by
  unfold natToDigits
  obtain ⟨m, rfl⟩ : ∃ m, n = m + 2 := ⟨n - 2, by omega⟩
  rw [natToDigitsCore_step (n := m + 2) (m + 2) (by omega),
    natToDigitsCore_step (n := (m + 2) / 10) (m + 1) (by omega),
    Nat.div_div_eq_div_mul,
    natToDigitsCore_step (n := (m + 2) / (10 * 10)) m (by omega),
    Nat.div_div_eq_div_mul,
    natToDigitsCore_small m ((m + 2) / (10 * 10 * 10)) (by omega) (by omega)]
  norm_num

/-! ## Padded field characterizations -/

lemma pad2_eq (v : ℕ) (h : v < 100) :
    padStart 2 '0' (natToDigits v) = [digitChar (v / 10), digitChar (v % 10)] := by
  rcases Nat.lt_or_ge v 10 with h10 | h10
  · rw [natToDigits_lt_10 v h10]
    have hv10 : v / 10 = 0 := by omega
    have hvm : v % 10 = v := by omega
    rw [hv10, hvm]
    rfl
  · rw [natToDigits_lt_100 v h10 h]
    rfl

lemma pad3_eq (v : ℕ) (h : v < 1000) :
    padStart 3 '0' (natToDigits v) =
      [digitChar (v / 100), digitChar (v / 10 % 10), digitChar (v % 10)] := by
  rcases Nat.lt_or_ge v 10 with h10 | h10
  · rw [natToDigits_lt_10 v h10]
    have e1 : v / 100 = 0 := by omega
    have e2 : v / 10 % 10 = 0 := by omega
    have e3 : v % 10 = v := by omega
    rw [e1, e2, e3]
    rfl
  · rcases Nat.lt_or_ge v 100 with h100 | h100
    · rw [natToDigits_lt_100 v h10 h100]
      have e1 : v / 100 = 0 := by omega
      have e2 : v / 10 % 10 = v / 10 := by omega
      rw [e1, e2]
      rfl
    · rw [natToDigits_lt_1000 v h100 h]
      rfl

lemma pad4_eq (v : ℕ) (h : v < 10000) :
    padStart 4 '0' (natToDigits v) = [digitChar (v / 1000), digitChar (v / 100 % 10),
      digitChar (v / 10 % 10), digitChar (v % 10)] := by
  rcases Nat.lt_or_ge v 10 with ha | ha
  · rw [natToDigits_lt_10 v ha]
    have e1 : v / 1000 = 0 := by omega
    have e2 : v / 100 % 10 = 0 := by omega
    have e3 : v / 10 % 10 = 0 := by omega
    have e4 : v % 10 = v := by omega
    rw [e1, e2, e3, e4]
    rfl
  · rcases Nat.lt_or_ge v 100 with hb | hb
    · rw [natToDigits_lt_100 v ha hb]
      have e1 : v / 1000 = 0 := by omega
      have e2 : v / 100 % 10 = 0 := by omega
      have e3 : v / 10 % 10 = v / 10 := by omega
      rw [e1, e2, e3]
      rfl
    · rcases Nat.lt_or_ge v 1000 with hc | hc
      · rw [natToDigits_lt_1000 v hb hc]
        have e1 : v / 1000 = 0 := by omega
        have e2 : v / 100 % 10 = v / 100 := by omega
        rw [e1, e2]
        rfl
      · rw [natToDigits_lt_10000 v hc h]
        rfl

/-! ## Splitting, replacing and parsing lemmas -/

lemma splitOnChar_not_mem (sep : Char) (l : JSStr) (h : sep ∉ l) :
    splitOnChar sep l = [l] := by
  induction l with
  | nil => rfl
  | cons c cs ih =>
    simp only [List.mem_cons, not_or] at h
    simp only [splitOnChar]
    rw [if_neg (fun hh => h.1 hh.symm), ih h.2]

lemma splitOnChar_append (sep : Char) (l1 l2 : JSStr) (h : sep ∉ l1) :
    splitOnChar sep (l1 ++ sep :: l2) = l1 :: splitOnChar sep l2 := by
  induction l1 with
  | nil => simp [splitOnChar]
  | cons c cs ih =>
    simp only [List.mem_cons, not_or] at h
    simp only [List.cons_append, splitOnChar, List.append_eq]
    rw [if_neg (fun hh => h.1 hh.symm), ih h.2]

lemma replaceFirst_append (pat : Char) (l1 l2 : JSStr) (h : pat ∉ l1) :
    replaceFirst pat (l1 ++ pat :: l2) = l1 ++ l2 := by
  induction l1 with
  | nil => simp [replaceFirst]
  | cons c cs ih =>
    simp only [List.mem_cons, not_or] at h
    simp only [List.cons_append, replaceFirst, List.append_eq]
    rw [if_neg (fun hh => h.1 hh.symm), ih h.2]

lemma takeDigitsAux_digit (n : ℕ) (h : n < 10) (rest : JSStr) (acc cnt : ℕ) :
    takeDigitsAux (digitChar n :: rest) acc cnt =
      takeDigitsAux rest (acc * 10 + n) (cnt + 1) := by
  simp [takeDigitsAux, parseDigit_digitChar n h]

lemma takeDigitsAux_stop (c : Char) (rest : JSStr) (acc cnt : ℕ)
    (h : parseDigit c = none) :
    takeDigitsAux (c :: rest) acc cnt = (acc, cnt, c :: rest) := by
  simp [takeDigitsAux, h]

lemma parseFloatJS_two (v : ℕ) (h : v < 100) :
    parseFloatJS [digitChar (v / 10), digitChar (v % 10)] = some ((v : ℕ) : ℚ) := by
  simp only [parseFloatJS]
  rw [if_neg (digitChar_ne_dash _), if_neg (digitChar_ne_plus _)]
  rw [takeDigitsAux_digit _ (by omega : v / 10 < 10),
    takeDigitsAux_digit _ (by omega : v % 10 < 10)]
  simp only [takeDigitsAux]
  norm_num
  exact_mod_cast (by omega : v / 10 * 10 + v % 10 = v)

lemma parseFloatJS_four (v : ℕ) (h : v < 10000) :
    parseFloatJS [digitChar (v / 1000), digitChar (v / 100 % 10), digitChar (v / 10 % 10),
      digitChar (v % 10)] = some ((v : ℕ) : ℚ) := by
  simp only [parseFloatJS]
  rw [if_neg (digitChar_ne_dash _), if_neg (digitChar_ne_plus _)]
  rw [takeDigitsAux_digit _ (by omega : v / 1000 < 10),
    takeDigitsAux_digit _ (by omega : v / 100 % 10 < 10),
    takeDigitsAux_digit _ (by omega : v / 10 % 10 < 10),
    takeDigitsAux_digit _ (by omega : v % 10 < 10)]
  simp only [takeDigitsAux]
  norm_num
  exact_mod_cast (by omega : ((v / 1000 * 10 + v / 100 % 10) * 10 + v / 10 % 10) * 10 + v % 10 = v)

lemma parseFloatJS_seconds (s ms : ℕ) (hs : s < 100) (hms : ms < 1000) :
    parseFloatJS [digitChar (s / 10), digitChar (s % 10), '.', digitChar (ms / 100),
      digitChar (ms / 10 % 10), digitChar (ms % 10)] =
      some ((s : ℚ) + (ms : ℚ) / 1000) := by
  simp only [parseFloatJS]
  rw [if_neg (digitChar_ne_dash _), if_neg (digitChar_ne_plus _)]
  rw [takeDigitsAux_digit _ (by omega : s / 10 < 10),
    takeDigitsAux_digit _ (by omega : s % 10 < 10),
    takeDigitsAux_stop _ _ _ _ (by decide)]
  simp only []
  rw [takeDigitsAux_digit _ (by omega : ms / 100 < 10),
    takeDigitsAux_digit _ (by omega : ms / 10 % 10 < 10),
    takeDigitsAux_digit _ (by omega : ms % 10 < 10)]
  simp only [takeDigitsAux]
  norm_num
  have e1 : ((s / 10 : ℕ) : ℚ) * 10 + ((s % 10 : ℕ) : ℚ) = (s : ℚ) := by
    exact_mod_cast (by omega : s / 10 * 10 + s % 10 = s)
  have e2 : (((ms / 100 : ℕ) : ℚ) * 10 + ((ms / 10 % 10 : ℕ) : ℚ)) * 10 + ((ms % 10 : ℕ) : ℚ)
      = (ms : ℚ) := by
    exact_mod_cast (by omega : (ms / 100 * 10 + ms / 10 % 10) * 10 + ms % 10 = ms)
  rw [e1, e2]

/-! ## Constructor evaluation on canonical ISO strings -/

lemma epochFromString_isoFormat (y mo d h mi s ms : ℕ) (hy : y < 10000)
    (hmo : mo < 100) (hd : d < 100) (hh : h < 100) (hmi : mi < 100)
    (hs : s < 100) (hms : ms < 1000) :
    epochJulianTTFromString (isoFormat y mo d h mi s ms) =
      Except.ok (some (julianUTCtoTT (calendarToJulian (y : ℚ) (mo : ℚ) (d : ℚ)
        (h : ℚ) (mi : ℚ) ((s : ℚ) + (ms : ℚ) / 1000)))) := by
  rw [isoFormat, pad4_eq y hy, pad2_eq mo hmo, pad2_eq d hd, pad2_eq h hh,
    pad2_eq mi hmi, pad2_eq s hs, pad3_eq ms hms]
  simp only [List.cons_append, List.nil_append, List.append_assoc]
  simp [epochJulianTTFromString, splitOnChar, replaceFirst, parseFloatAt,
    digitChar_ne_T, digitChar_ne_dash, digitChar_ne_colon, digitChar_ne_dot,
    digitChar_ne_Z,
    (by decide : ¬('-' = 'T')), (by decide : ¬(':' = 'T')),
    (by decide : ¬('.' = 'T')), (by decide : ¬('Z' = 'T')),
    (by decide : ¬('.' = '-')), (by decide : ¬('.' = ':')),
    (by decide : ¬('Z' = ':')), (by decide : ¬('.' = 'Z')),
    parseFloatJS_four y hy, parseFloatJS_two mo hmo, parseFloatJS_two d hd,
    parseFloatJS_two h hh, parseFloatJS_two mi hmi,
    parseFloatJS_seconds s ms hs hms]

/-! ## Formatting evaluation -/

lemma jsIntToString_natCast (n : ℕ) : jsIntToString (n : ℤ) = natToDigits n := by
  unfold jsIntToString
  rw [if_neg (by omega : ¬ ((n : ℤ) < 0)), Int.toNat_natCast]

lemma toFixed3_split (s ms : ℕ) (hms : ms < 1000) :
    toFixed3 ((s : ℚ) + (ms : ℚ) / 1000) =
      natToDigits s ++ '.' :: padStart 3 '0' (natToDigits ms) := by
  have hq0 : ¬ ((s : ℚ) + (ms : ℚ) / 1000 < 0) := by push_neg; positivity
  unfold toFixed3 toFixed3Abs
  rw [if_neg hq0]
  have hfl : ⌊((s : ℚ) + (ms : ℚ) / 1000) * 1000 + 1 / 2⌋ = ((1000 * s + ms : ℕ) : ℤ) := by
    have he : ((s : ℚ) + (ms : ℚ) / 1000) * 1000 + 1 / 2 =
        (((1000 * s + ms : ℕ) : ℤ) : ℚ) + 1 / 2 := by push_cast; ring
    rw [he, floor_intCast_add_fract _ _ (by norm_num) (by norm_num)]
  rw [hfl, Int.toNat_natCast]
  show natToDigits ((1000 * s + ms) / 1000) ++ '.' ::
    padStart 3 '0' (natToDigits ((1000 * s + ms) % 1000)) =
    natToDigits s ++ '.' :: padStart 3 '0' (natToDigits ms)
  have e1 : (1000 * s + ms) / 1000 = s := by omega
  have e2 : (1000 * s + ms) % 1000 = ms := by omega
  rw [e1, e2]

lemma padStart6_toFixed3 (s ms : ℕ) (hs : s < 100) (hms : ms < 1000) :
    padStart 6 '0' (toFixed3 ((s : ℚ) + (ms : ℚ) / 1000)) =
      padStart 2 '0' (natToDigits s) ++ '.' :: padStart 3 '0' (natToDigits ms) := by
  rw [toFixed3_split s ms hms]
  rcases Nat.lt_or_ge s 10 with h10 | h10
  · rw [natToDigits_lt_10 s h10, pad3_eq ms hms]
    simp [padStart]
  · rw [natToDigits_lt_100 s h10 hs, pad3_eq ms hms]
    simp [padStart]

/-- If the UTC calendar decoding of `jd` has in-range natural components,
`Epoch.toString` prints the canonical ISO string of those components. -/
lemma epochToString_of_calendar (jd : ℚ) (y mo d h mi s ms : ℕ)
    (hcal : julianToCalendar (julianTTtoUTC jd) =
      ⟨(y : ℤ), (mo : ℤ), (d : ℤ), (h : ℤ), (mi : ℤ), (s : ℚ) + (ms : ℚ) / 1000⟩)
    (hs : s < 100) (hms : ms < 1000) :
    Epoch.toString ⟨jd⟩ = isoFormat y mo d h mi s ms := by
  simp only [Epoch.toString, hcal]
  rw [isoFormat]
  simp only [jsIntToString_natCast, padStart6_toFixed3 s ms hs hms]

/-! ## The symbolic Gregorian round trip -/

lemma intCast_gt_13_5 (z : ℤ) : ((13.5 : ℚ) < (z : ℚ)) ↔ 14 ≤ z := by
  rw [show (13.5 : ℚ) = 27 / 2 by norm_num, div_lt_iff₀ (by norm_num : (0 : ℚ) < 2)]
  constructor
  · intro hq
    have h2 : (27 : ℤ) < z * 2 := by exact_mod_cast hq
    omega
  · intro hz
    have h2 : (27 : ℤ) < z * 2 := by omega
    exact_mod_cast h2

lemma intCast_lt_2_5 (z : ℤ) : ((z : ℚ) < 2.5) ↔ z ≤ 2 := by
  rw [show (2.5 : ℚ) = 5 / 2 by norm_num, lt_div_iff₀ (by norm_num : (0 : ℚ) < 2)]
  constructor
  · intro hq
    have h2 : z * 2 < (5 : ℤ) := by exact_mod_cast hq
    omega
  · intro hz
    have h2 : z * 2 < (5 : ℤ) := by omega
    exact_mod_cast h2

lemma hmsToDays_bounds (h mi : ℕ) (sec : ℚ) (hh : h ≤ 23) (hmi : mi ≤ 59)
    (hs0 : 0 ≤ sec) (hs1 : sec < 60) :
    0 ≤ hmsToDays (h : ℚ) (mi : ℚ) sec ∧ hmsToDays (h : ℚ) (mi : ℚ) sec < 1 := by
  rw [hmsToDays_eq]
  have h1 : (h : ℚ) ≤ 23 := by exact_mod_cast hh
  have h2 : (mi : ℚ) ≤ 59 := by exact_mod_cast hmi
  constructor
  · positivity
  · linarith

/-- The forward conversion written with the integer Julian day number
`N = 2 - Y/100 + (Y/100)/4 + 1461 Y/4 + 306001 (m+1)/10000 + d + 1720995`
(all divisions are Euclidean divisions of integers). -/
lemma calendarToJulian_eq_N (y mo d h mi : ℕ) (sec : ℚ) (Y mIdx : ℤ)
    (hY : (if (mo : ℚ) < 3 then (y : ℚ) - 1 else (y : ℚ)) = (Y : ℚ))
    (hM : (if (mo : ℚ) < 3 then (mo : ℚ) + 12 else (mo : ℚ)) = (mIdx : ℚ)) :
    calendarToJulian y mo d h mi sec =
      ((2 - Y / 100 + Y / 100 / 4 + 1461 * Y / 4 + 306001 * (mIdx + 1) / 10000 +
        (d : ℤ) + 1720995 : ℤ) : ℚ) - 0.5 + hmsToDays h mi sec := by
  have h1 : ⌊(Y : ℚ) * 0.01⌋ = Y / 100 :=
    floorQ_div _ Y 100 (by norm_num) (by push_cast; ring_nf)
  have h2 : ⌊((Y / 100 : ℤ) : ℚ) * 0.25⌋ = Y / 100 / 4 :=
    floorQ_div _ (Y / 100) 4 (by norm_num) (by push_cast; ring_nf)
  have h3 : ⌊(365.25 : ℚ) * (Y : ℚ)⌋ = 1461 * Y / 4 :=
    floorQ_div _ (1461 * Y) 4 (by norm_num) (by push_cast; ring_nf)
  have h4 : ⌊(30.6001 : ℚ) * ((mIdx : ℚ) + 1)⌋ = 306001 * (mIdx + 1) / 10000 :=
    floorQ_div _ (306001 * (mIdx + 1)) 10000 (by norm_num) (by push_cast; ring_nf)
  have hb := calendarToJulian_build (y : ℚ) (mo : ℚ) (d : ℚ) (h : ℚ) (mi : ℚ) sec
    (Y : ℚ) (mIdx : ℚ) (Y / 100) (Y / 100 / 4) (1461 * Y / 4)
    (306001 * (mIdx + 1) / 10000) (hmsToDays (h : ℚ) (mi : ℚ) sec) hY hM h1 h2 h3 h4 rfl
  rw [hb]
  push_cast
  ring

/-- The heart of the inverse direction: for a valid Gregorian date after the
cutover, the intermediate integer quantities of `julianToCalendar` recover the
year, month index and day.  All facts are integer linear arithmetic. -/
lemma greg_core (Y mIdx D N α b c d e g Mv : ℤ)
    (hmi1 : 3 ≤ mIdx) (hmi2 : mIdx ≤ 14)
    (hD1 : 1 ≤ D)
    (hD2 : D ≤ 28 ∨
      (D ≤ 30 ∧ (mIdx = 4 ∨ mIdx = 6 ∨ mIdx = 9 ∨ mIdx = 11)) ∨
      (D ≤ 31 ∧ (mIdx = 3 ∨ mIdx = 5 ∨ mIdx = 7 ∨ mIdx = 8 ∨ mIdx = 10 ∨
        mIdx = 12 ∨ mIdx = 13)) ∨
      (D = 29 ∧ mIdx = 14 ∧ (Y + 1) % 4 = 0 ∧ ((Y + 1) % 100 ≠ 0 ∨ (Y + 1) % 400 = 0)))
    (hMv : Mv = 306001 * (mIdx + 1) / 10000)
    (hN : N = 2 - Y / 100 + Y / 100 / 4 + 1461 * Y / 4 + Mv + D + 1720995)
    (hcut : 2299162 ≤ N)
    (hα : α = (4 * N - 7468865) / 146097)
    (hb : b = N + 1 + α - α / 4)
    (hc : c = b + 1524)
    (hd : d = (20 * c - 2442) / 7305)
    (he : e = 1461 * d / 4)
    (hg : g = 10000 * (c - e) / 306001) :
    2299160 < N ∧ d = Y + 4716 ∧ c - e = Mv + D ∧ g = mIdx + 1 := by
  have hα2 : α = Y / 100 - 4 := by
    have hLB : 146097 * (Y / 100 - 4) ≤ 4 * N - 7468865 := by
      rcases Int.lt_or_le (Y % 100) 1 with hcase | hcase
      · omega
      · omega
    have hUB : 4 * N - 7468865 < 146097 * (Y / 100 - 3) := by
      rcases Int.lt_or_le (Y % 100) 99 with hcase | hcase
      · omega
      · omega
    omega
  have hc2 : c = 1461 * Y / 4 + Mv + D + 1722519 := by omega
  have hd2 : d = Y + 4716 := by
    have hLB : 7305 * (Y + 4716) ≤ 20 * c - 2442 := by omega
    have hUB : 20 * c - 2442 < 7305 * (Y + 4717) := by omega
    omega
  have he2 : e = 1461 * Y / 4 + 1722519 := by omega
  have hce : c - e = Mv + D := by omega
  have hg2 : g = mIdx + 1 := by
    have hLB : 306001 * (mIdx + 1) ≤ 10000 * (c - e) := by omega
    have hUB : 10000 * (c - e) < 306001 * (mIdx + 2) := by omega
    omega
  exact ⟨by omega, hd2, hce, hg2⟩

/-- Symbolic evaluation of `julianToCalendar` on the Gregorian branch: at
`jd = N - 0.5 + f` with `N` the integer Julian day number of a valid
post-cutover Gregorian date and `f` the fractional day, the calendar record
of that date is recovered. -/
lemma julianToCalendar_gregorian (Y mIdx D N : ℤ) (f : ℚ)
    (hf0 : 0 ≤ f) (hf1 : f < 1)
    (hmi1 : 3 ≤ mIdx) (hmi2 : mIdx ≤ 14) (hD1 : 1 ≤ D)
    (hD2 : D ≤ 28 ∨
      (D ≤ 30 ∧ (mIdx = 4 ∨ mIdx = 6 ∨ mIdx = 9 ∨ mIdx = 11)) ∨
      (D ≤ 31 ∧ (mIdx = 3 ∨ mIdx = 5 ∨ mIdx = 7 ∨ mIdx = 8 ∨ mIdx = 10 ∨
        mIdx = 12 ∨ mIdx = 13)) ∨
      (D = 29 ∧ mIdx = 14 ∧ (Y + 1) % 4 = 0 ∧ ((Y + 1) % 100 ≠ 0 ∨ (Y + 1) % 400 = 0)))
    (hN : N = 2 - Y / 100 + Y / 100 / 4 + 1461 * Y / 4 +
      306001 * (mIdx + 1) / 10000 + D + 1720995)
    (hcut : 2299162 ≤ N) :
    julianToCalendar ((N : ℚ) - 0.5 + f) =
      ⟨(if 13 ≤ mIdx then Y + 1 else Y), (if 13 ≤ mIdx then mIdx - 12 else mIdx), D,
       (daysToHMS f).hours, (daysToHMS f).minutes, (daysToHMS f).seconds⟩ := by
  obtain ⟨Mv, hMv⟩ : ∃ v : ℤ, v = 306001 * (mIdx + 1) / 10000 := ⟨_, rfl⟩
  obtain ⟨α, hα⟩ : ∃ v : ℤ, v = (4 * N - 7468865) / 146097 := ⟨_, rfl⟩
  obtain ⟨b, hb⟩ : ∃ v : ℤ, v = N + 1 + α - α / 4 := ⟨_, rfl⟩
  obtain ⟨c, hc⟩ : ∃ v : ℤ, v = b + 1524 := ⟨_, rfl⟩
  obtain ⟨d2, hd2⟩ : ∃ v : ℤ, v = (20 * c - 2442) / 7305 := ⟨_, rfl⟩
  obtain ⟨e, he⟩ : ∃ v : ℤ, v = 1461 * d2 / 4 := ⟨_, rfl⟩
  obtain ⟨g, hg⟩ : ∃ v : ℤ, v = 10000 * (c - e) / 306001 := ⟨_, rfl⟩
  obtain ⟨hNgt, hdY, hce, hgm⟩ := greg_core Y mIdx D N α b c d2 e g Mv
    hmi1 hmi2 hD1 hD2 hMv (by omega) hcut hα hb hc hd2 he hg
  have hfl1 : ⌊((N : ℚ) - 1867216.25) * JD_RECIPROCAL_1⌋ = α :=
    (floorQ_div _ (4 * N - 7468865) 146097 (by norm_num)
      (by unfold JD_RECIPROCAL_1; push_cast; ring_nf)).trans hα.symm
  have hfl2 : ⌊((α : ℤ) : ℚ) * 0.25⌋ = α / 4 :=
    floorQ_div _ α 4 (by norm_num) (by push_cast; ring_nf)
  have hbuild := julianToCalendar_build ((N : ℚ) - 0.5 + f) N b c d2 e g Mv f
    (by
      rw [show ((N : ℚ) - 0.5 + f) + 0.5 = (N : ℚ) + f by ring]
      exact floor_intCast_add_fract N f hf0 hf1)
    (by ring) hf0 hf1
    (by
      rw [if_pos (show N > 2299160 from hNgt), hfl1, hfl2]
      omega)
    hc.symm
    ((floorQ_div _ (20 * c - 2442) 7305 (by norm_num)
      (by unfold JD_RECIPROCAL_2; push_cast; ring_nf)).trans hd2.symm)
    ((floorQ_div _ (1461 * d2) 4 (by norm_num) (by push_cast; ring_nf)).trans he.symm)
    ((floorQ_div _ (10000 * (c - e)) 306001 (by norm_num)
      (by unfold JD_RECIPROCAL_3; push_cast; ring_nf)).trans hg.symm)
    (by
      rw [hgm]
      exact (floorQ_div _ (306001 * (mIdx + 1)) 10000 (by norm_num)
        (by push_cast; ring_nf)).trans hMv.symm)
  rw [hbuild]
  have hmonth : (if (g : ℚ) > 13.5 then g - 1 - 12 else g - 1) =
      (if 13 ≤ mIdx then mIdx - 12 else mIdx) := by
    by_cases h13 : 13 ≤ mIdx
    · rw [if_pos ((intCast_gt_13_5 g).2 (by omega)), if_pos h13]
      omega
    · rw [if_neg (fun hgt => by
        have := (intCast_gt_13_5 g).1 hgt
        omega), if_neg h13]
      omega
  rw [hmonth]
  have hyear : (if (((if 13 ≤ mIdx then mIdx - 12 else mIdx) : ℤ) : ℚ) < 2.5
      then d2 - 4716 + 1 else d2 - 4716) = (if 13 ≤ mIdx then Y + 1 else Y) := by
    by_cases h13 : 13 ≤ mIdx
    · simp only [if_pos h13]
      rw [if_pos ((intCast_lt_2_5 _).2 (by omega))]
      omega
    · simp only [if_neg h13]
      rw [if_neg (fun hlt => absurd ((intCast_lt_2_5 _).1 hlt) (by omega))]
      omega
  rw [hyear]
  have hday : c - e - Mv = D := by omega
  rw [hday]

/-- Number of days in a month of the proleptic Gregorian calendar (used only
to state which calendar dates are valid; not part of the source). -/
def daysInMonth (y mo : ℕ) : ℕ :=
  if mo = 2 then (if y % 4 = 0 ∧ (y % 100 ≠ 0 ∨ y % 400 = 0) then 29 else 28)
  else if mo = 4 ∨ mo = 6 ∨ mo = 9 ∨ mo = 11 then 30 else 31

/-- The date (y, mo, d) is strictly after 1582-10-15, the first day of the
Gregorian calendar. -/
def afterGregorianReform (y mo d : ℕ) : Prop :=
  1583 ≤ y ∨ (y = 1582 ∧ (11 ≤ mo ∨ (mo = 10 ∧ 16 ≤ d)))

instance (y mo d : ℕ) : Decidable (afterGregorianReform y mo d) := by
  unfold afterGregorianReform; infer_instance

/-- The calendar round trip: decoding the Julian date of any valid Gregorian
calendar date strictly after 1582-10-15 (year at most 9999) recovers the
date and time exactly. -/
theorem julianToCalendar_calendarToJulian (y mo d h mi : ℕ) (sec : ℚ)
    (hmo1 : 1 ≤ mo) (hmo2 : mo ≤ 12) (hy : y ≤ 9999)
    (hd1 : 1 ≤ d) (hdm : d ≤ daysInMonth y mo)
    (hh : h ≤ 23) (hmi : mi ≤ 59) (hs0 : 0 ≤ sec) (hs1 : sec < 60)
    (hcut : afterGregorianReform y mo d) :
    julianToCalendar (calendarToJulian y mo d h mi sec) =
      ⟨(y : ℤ), (mo : ℤ), (d : ℤ), (h : ℤ), (mi : ℤ), sec⟩ := by
  obtain ⟨Y, hYv⟩ : ∃ v : ℤ, v = if mo < 3 then (y : ℤ) - 1 else (y : ℤ) := ⟨_, rfl⟩
  obtain ⟨mIdx, hMIv⟩ : ∃ v : ℤ, v = if mo < 3 then (mo : ℤ) + 12 else (mo : ℤ) := ⟨_, rfl⟩
  have hYq : (if (mo : ℚ) < 3 then (y : ℚ) - 1 else (y : ℚ)) = (Y : ℚ) := by
    rcases Nat.lt_or_ge mo 3 with h3 | h3
    · rw [if_pos (by exact_mod_cast h3), hYv, if_pos h3]
      push_cast; ring
    · rw [if_neg (fun hq => absurd (show mo < 3 by exact_mod_cast hq) (by omega)),
        hYv, if_neg (by omega)]
      push_cast; ring
  have hMq : (if (mo : ℚ) < 3 then (mo : ℚ) + 12 else (mo : ℚ)) = (mIdx : ℚ) := by
    rcases Nat.lt_or_ge mo 3 with h3 | h3
    · rw [if_pos (by exact_mod_cast h3), hMIv, if_pos h3]
      push_cast; ring
    · rw [if_neg (fun hq => absurd (show mo < 3 by exact_mod_cast hq) (by omega)),
        hMIv, if_neg (by omega)]
      push_cast; ring
  obtain ⟨hf0, hf1⟩ := hmsToDays_bounds h mi sec hh hmi hs0 hs1
  have hkey : 3 ≤ mIdx ∧ mIdx ≤ 14 ∧ 1 ≤ (d : ℤ) ∧
      ((d : ℤ) ≤ 28 ∨
        ((d : ℤ) ≤ 30 ∧ (mIdx = 4 ∨ mIdx = 6 ∨ mIdx = 9 ∨ mIdx = 11)) ∨
        ((d : ℤ) ≤ 31 ∧ (mIdx = 3 ∨ mIdx = 5 ∨ mIdx = 7 ∨ mIdx = 8 ∨ mIdx = 10 ∨
          mIdx = 12 ∨ mIdx = 13)) ∨
        ((d : ℤ) = 29 ∧ mIdx = 14 ∧ (Y + 1) % 4 = 0 ∧
          ((Y + 1) % 100 ≠ 0 ∨ (Y + 1) % 400 = 0))) ∧
      2299162 ≤ 2 - Y / 100 + Y / 100 / 4 + 1461 * Y / 4 +
        306001 * (mIdx + 1) / 10000 + (d : ℤ) + 1720995 := by
    unfold daysInMonth at hdm
    unfold afterGregorianReform at hcut
    interval_cases mo <;>
      (try norm_num at hdm) <;>
      (try norm_num at hYv) <;>
      (try norm_num at hMIv) <;>
      (try norm_num at hcut) <;>
      (try split_ifs at hdm) <;>
      omega
  rw [calendarToJulian_eq_N y mo d h mi sec Y mIdx hYq hMq]
  rw [julianToCalendar_gregorian Y mIdx (d : ℤ) _ (hmsToDays (h : ℚ) (mi : ℚ) sec)
    hf0 hf1 hkey.1 hkey.2.1 hkey.2.2.1 hkey.2.2.2.1 rfl hkey.2.2.2.2]
  have htime := daysToHMS_hmsToDays (h : ℤ) (mi : ℤ) sec
    (by positivity) (by exact_mod_cast hmi) hs0 hs1
  rw [show ((h : ℤ) : ℚ) = (h : ℚ) by push_cast; ring,
    show ((mi : ℤ) : ℚ) = (mi : ℚ) by push_cast; ring] at htime
  rw [htime]
  have hyr : (if 13 ≤ mIdx then Y + 1 else Y) = (y : ℤ) := by
    rw [hYv, hMIv]
    split_ifs <;> omega
  have hmr : (if 13 ≤ mIdx then mIdx - 12 else mIdx) = (mo : ℤ) := by
    rw [hMIv]
    split_ifs <;> omega
  rw [hyr, hmr]

/-! ## Concrete evaluations for 2018-08-08T08:08:08.888Z -/

lemma TT_const_value : TT_MINUS_UTC = 69.184 / 86400 ^ 2 := by
  unfold TT_MINUS_UTC TT_MINUS_TAI TAI_MINUS_UTC SECONDS_TO_DAYS DAYS_TO_SECONDS
  norm_num

lemma hms_888 : hmsToDays 8 8 (8 + 888 / 1000) = 3661111 / 10800000 := by
  rw [hmsToDays_eq]; norm_num

lemma cal_2018_08_08 : calendarToJulian 2018 8 8 8 8 (8 + 888 / 1000) =
    2458338.5 + 3661111 / 10800000 := by
  have h := calendarToJulian_build 2018 8 8 8 8 (8 + 888 / 1000) 2018 8 20 5 737074 275
    (3661111 / 10800000)
    (if_neg (by norm_num)) (if_neg (by norm_num))
    (Int.floor_eq_iff.2 (by norm_num))
    (Int.floor_eq_iff.2 (by push_cast; norm_num))
    (Int.floor_eq_iff.2 (by norm_num))
    (Int.floor_eq_iff.2 (by norm_num))
    hms_888
  rw [h]; push_cast; norm_num

lemma cal_2018_08_09 : calendarToJulian 2018 8 9 8 8 (8 + 888 / 1000) =
    2458339.5 + 3661111 / 10800000 := by
  have h := calendarToJulian_build 2018 8 9 8 8 (8 + 888 / 1000) 2018 8 20 5 737074 275
    (3661111 / 10800000)
    (if_neg (by norm_num)) (if_neg (by norm_num))
    (Int.floor_eq_iff.2 (by norm_num))
    (Int.floor_eq_iff.2 (by push_cast; norm_num))
    (Int.floor_eq_iff.2 (by norm_num))
    (Int.floor_eq_iff.2 (by norm_num))
    hms_888
  rw [h]; push_cast; norm_num

lemma frac_888_as_hms : (3661111 / 10800000 : ℚ) =
    hmsToDays ((8 : ℤ) : ℚ) ((8 : ℤ) : ℚ) ((8 : ℚ) + 888 / 1000) := by
  rw [hmsToDays_eq]; push_cast; norm_num

lemma jcal_2018_08_08 : julianToCalendar (2458338.5 + 3661111 / 10800000) =
    ⟨2018, 8, 8, 8, 8, (8 : ℚ) + 888 / 1000⟩ := by
  have h := julianToCalendar_build (2458338.5 + 3661111 / 10800000)
      2458339 2458352 2459876 6734 2459593 9 275 (3661111 / 10800000)
    (by
      rw [show (2458338.5 + 3661111 / 10800000 : ℚ) + 0.5 =
        ((2458339 : ℤ) : ℚ) + 3661111 / 10800000 by push_cast; ring]
      exact floor_intCast_add_fract _ _ (by norm_num) (by norm_num))
    (by push_cast; ring_nf) (by norm_num) (by norm_num)
    (by
      rw [if_pos (by norm_num : (2458339 : ℤ) > 2299160),
        show ⌊(((2458339 : ℤ) : ℚ) - 1867216.25) * JD_RECIPROCAL_1⌋ = 16 from
          Int.floor_eq_iff.2 (by unfold JD_RECIPROCAL_1; push_cast; norm_num),
        show ⌊((16 : ℤ) : ℚ) * 0.25⌋ = 4 from Int.floor_eq_iff.2 (by push_cast; norm_num)]
      norm_num)
    (by norm_num)
    (Int.floor_eq_iff.2 (by unfold JD_RECIPROCAL_2; push_cast; norm_num))
    (Int.floor_eq_iff.2 (by push_cast; norm_num))
    (Int.floor_eq_iff.2 (by unfold JD_RECIPROCAL_3; push_cast; norm_num))
    (Int.floor_eq_iff.2 (by push_cast; norm_num))
  rw [h, frac_888_as_hms,
    daysToHMS_hmsToDays 8 8 _ (by norm_num) (by norm_num) (by norm_num) (by norm_num)]
  norm_num

lemma jcal_2018_08_09 : julianToCalendar (2458339.5 + 3661111 / 10800000) =
    ⟨2018, 8, 9, 8, 8, (8 : ℚ) + 888 / 1000⟩ := by
  have h := julianToCalendar_build (2458339.5 + 3661111 / 10800000)
      2458340 2458353 2459877 6734 2459593 9 275 (3661111 / 10800000)
    (by
      rw [show (2458339.5 + 3661111 / 10800000 : ℚ) + 0.5 =
        ((2458340 : ℤ) : ℚ) + 3661111 / 10800000 by push_cast; ring]
      exact floor_intCast_add_fract _ _ (by norm_num) (by norm_num))
    (by push_cast; ring_nf) (by norm_num) (by norm_num)
    (by
      rw [if_pos (by norm_num : (2458340 : ℤ) > 2299160),
        show ⌊(((2458340 : ℤ) : ℚ) - 1867216.25) * JD_RECIPROCAL_1⌋ = 16 from
          Int.floor_eq_iff.2 (by unfold JD_RECIPROCAL_1; push_cast; norm_num),
        show ⌊((16 : ℤ) : ℚ) * 0.25⌋ = 4 from Int.floor_eq_iff.2 (by push_cast; norm_num)]
      norm_num)
    (by norm_num)
    (Int.floor_eq_iff.2 (by unfold JD_RECIPROCAL_2; push_cast; norm_num))
    (Int.floor_eq_iff.2 (by push_cast; norm_num))
    (Int.floor_eq_iff.2 (by unfold JD_RECIPROCAL_3; push_cast; norm_num))
    (Int.floor_eq_iff.2 (by push_cast; norm_num))
  rw [h, frac_888_as_hms,
    daysToHMS_hmsToDays 8 8 _ (by norm_num) (by norm_num) (by norm_num) (by norm_num)]
  norm_num

/-! ## Claim theorems -/

/-- C1: the code adds and subtracts the fixed constant `TT_MINUS_UTC` in
`julianUTCtoTT` / `julianTTtoUTC`, as the claim says; but the constant itself
equals `69.184 / 86400 ^ 2` days (about 0.0008 seconds), not the claimed
`69.184 / 86400` days (about 69.18 seconds): `constants.js` converts the sum
of the two already-day-valued constants by `SECONDS_TO_DAYS` a second time. -/
theorem tt_offset_constant_double_conversion :
    (∀ jd : ℚ, julianUTCtoTT jd - jd = TT_MINUS_UTC ∧
      julianTTtoUTC jd = jd - TT_MINUS_UTC) ∧
    TT_MINUS_UTC = 69.184 / 86400 ^ 2 ∧ TT_MINUS_UTC ≠ 69.184 / 86400 := by
  refine ⟨fun jd => ⟨by unfold julianUTCtoTT; ring, rfl⟩, ?_, ?_⟩ <;>
    · unfold TT_MINUS_UTC TT_MINUS_TAI TAI_MINUS_UTC SECONDS_TO_DAYS DAYS_TO_SECONDS
      norm_num

/-- C2: for every valid ISO string of the form YYYY-MM-DDTHH:MM:SS.000Z
(integer-second precision, a real Gregorian calendar date strictly after
1582-10-15, four-digit year), constructing an Epoch from the string and
calling `toString()` returns exactly the same string. -/
theorem iso_string_roundtrip (y mo d h mi s : ℕ)
    (hy : y ≤ 9999) (hmo1 : 1 ≤ mo) (hmo2 : mo ≤ 12)
    (hd1 : 1 ≤ d) (hdm : d ≤ daysInMonth y mo)
    (hh : h ≤ 23) (hmi : mi ≤ 59) (hs : s ≤ 59)
    (hcut : afterGregorianReform y mo d) :
    ∃ jd : ℚ, epochJulianTTFromString (isoFormat y mo d h mi s 0) =
        Except.ok (some jd) ∧
      Epoch.toString ⟨jd⟩ = isoFormat y mo d h mi s 0 := by
  refine ⟨julianUTCtoTT (calendarToJulian (y : ℚ) (mo : ℚ) (d : ℚ) (h : ℚ) (mi : ℚ)
    ((s : ℚ) + ((0 : ℕ) : ℚ) / 1000)), ?_, ?_⟩
  · have h31 : daysInMonth y mo ≤ 31 := by
      unfold daysInMonth; split_ifs <;> omega
    exact epochFromString_isoFormat y mo d h mi s 0 (by omega) (by omega) (by omega)
      (by omega) (by omega) (by omega) (by omega)
  · have hinv : julianTTtoUTC (julianUTCtoTT (calendarToJulian (y : ℚ) (mo : ℚ) (d : ℚ)
        (h : ℚ) (mi : ℚ) ((s : ℚ) + ((0 : ℕ) : ℚ) / 1000))) =
        calendarToJulian (y : ℚ) (mo : ℚ) (d : ℚ) (h : ℚ) (mi : ℚ)
          ((s : ℚ) + ((0 : ℕ) : ℚ) / 1000) := by
      unfold julianTTtoUTC julianUTCtoTT; ring
    exact epochToString_of_calendar _ y mo d h mi s 0
      (by
        rw [hinv]
        exact julianToCalendar_calendarToJulian y mo d h mi _ hmo1 hmo2 hy hd1 hdm
          hh hmi (by positivity)
          (by push_cast; norm_num; exact_mod_cast Nat.lt_succ_of_le hs)
          hcut)
      (by omega) (by omega)

/-- Witness for C2 at 2000-03-01T00:00:00.000Z. -/
theorem iso_string_roundtrip_witness :
    ∃ jd : ℚ, epochJulianTTFromString (isoFormat 2000 3 1 0 0 0 0) =
        Except.ok (some jd) ∧
      Epoch.toString ⟨jd⟩ = isoFormat 2000 3 1 0 0 0 0 :=
  iso_string_roundtrip 2000 3 1 0 0 0 (by norm_num) (by norm_num) (by norm_num)
    (by norm_num) (by norm_num [daysInMonth]) (by norm_num) (by norm_num)
    (by norm_num) (by decide)

/-- C3 counterexample: the round trip `calendarToJulian(julianToCalendar(jd))`
fails on the Julian side of the threshold.  At `jd = 2299160` (which takes the
unmodified Julian branch and decodes to 1582-10-04T12:00) feeding the record
back into `calendarToJulian` — which always applies the Gregorian correction —
returns 2299150, i.e. the input minus 10 days, far beyond floating-point
tolerance. -/
theorem julian_branch_roundtrip_fails_at_2299160 :
    calendarToJulian ((julianToCalendar 2299160).year : ℚ)
      ((julianToCalendar 2299160).month : ℚ) ((julianToCalendar 2299160).day : ℚ)
      ((julianToCalendar 2299160).hour : ℚ) ((julianToCalendar 2299160).minute : ℚ)
      (julianToCalendar 2299160).second = 2299150 ∧
    (2299160 : ℚ) - 2299150 = 10 := by
  rw [julianToCalendar_2299160]
  refine ⟨?_, by norm_num⟩
  show calendarToJulian ((1582 : ℤ) : ℚ) ((10 : ℤ) : ℚ) ((4 : ℤ) : ℚ)
    ((12 : ℤ) : ℚ) ((0 : ℤ) : ℚ) 0 = 2299150
  push_cast
  exact calendarToJulian_1582_10_4

/-- C3 (amended): `julianToCalendar` applies the Gregorian cutover correction
iff the integer Julian day number `floor(jd + 0.5)` exceeds 2299160, so
2299160 takes the unmodified Julian branch (decoding to 1582-10-04T12:00)
while 2299161 takes the Gregorian branch (decoding to 1582-10-15T12:00).  The
round trip `calendarToJulian(julianToCalendar(jd))` is exact at 2299161, but
at 2299160 it returns 2299150 = jd - 10, because `calendarToJulian` applies
the Gregorian correction unconditionally. -/
theorem cutover_branch_selection_and_roundtrip :
    (∀ jd : ℚ, ⌊jd + 0.5⌋ ≤ 2299160 →
      julianToCalendar jd = julianToCalendarJulianBranch jd) ∧
    (∀ jd : ℚ, 2299160 < ⌊jd + 0.5⌋ →
      julianToCalendar jd = julianToCalendarGregorianBranch jd) ∧
    julianToCalendar 2299160 = ⟨1582, 10, 4, 12, 0, 0⟩ ∧
    julianToCalendar 2299161 = ⟨1582, 10, 15, 12, 0, 0⟩ ∧
    calendarToJulian 1582 10 15 12 0 0 = 2299161 ∧
    calendarToJulian 1582 10 4 12 0 0 = 2299150 :=
  ⟨julianToCalendar_of_le, julianToCalendar_of_gt, julianToCalendar_2299160,
   julianToCalendar_2299161, calendarToJulian_1582_10_15, calendarToJulian_1582_10_4⟩

/-- Witness for the amended C3 theorem at the two threshold inputs: 2299160
selects the Julian branch and 2299161 the Gregorian branch. -/
theorem cutover_branch_selection_witness :
    julianToCalendar 2299160 = julianToCalendarJulianBranch 2299160 ∧
    julianToCalendar 2299161 = julianToCalendarGregorianBranch 2299161 :=
  ⟨cutover_branch_selection_and_roundtrip.1 2299160
    (by rw [show ⌊(2299160 : ℚ) + 0.5⌋ = 2299160 from Int.floor_eq_iff.2 (by norm_num)]),
   cutover_branch_selection_and_roundtrip.2.1 2299161
    (by rw [show ⌊(2299161 : ℚ) + 0.5⌋ = 2299161 from Int.floor_eq_iff.2 (by norm_num)]
        norm_num)⟩

lemma parse_2018_value :
    epochJulianTTFromString (String.toList "2018-08-08T08:08:08.888Z") =
      Except.ok (some (2458338.5 + 3661111 / 10800000 + 69.184 / 86400 ^ 2)) := by
  have hstr : String.toList "2018-08-08T08:08:08.888Z" = isoFormat 2018 8 8 8 8 8 888 := by
    decide
  rw [hstr, epochFromString_isoFormat 2018 8 8 8 8 8 888 (by norm_num) (by norm_num)
    (by norm_num) (by norm_num) (by norm_num) (by norm_num) (by norm_num)]
  norm_num [julianUTCtoTT, TT_const_value]
  rw [show (1111 / 125 : ℚ) = 8 + 888 / 1000 by norm_num, cal_2018_08_08]
  norm_num

lemma parse_missing_dash :
    epochJulianTTFromString (String.toList "2018T08:08:08.888Z") = Except.ok none := by
  simp +decide [epochJulianTTFromString, splitOnChar, replaceFirst, parseFloatAt,
    parseFloatJS, takeDigitsAux, parseDigit]

/-- C4 counterexample: `new Epoch('2018-08-08T08:08:08.888Z')` stores
`julianTT = 2458338.5 + 3661111/10800000 + 69.184/86400^2 = 2458338.83899...`,
which is more than 7 days below the claimed value 2458345.839258, so the
claim's printed digits are wrong (the UTC Julian date of that instant is
2458338.838992, not 2458345.8...). -/
theorem epoch_2018_julianTT_differs_from_claim :
    epochJulianTTFromString (String.toList "2018-08-08T08:08:08.888Z") =
      Except.ok (some (2458338.5 + 3661111 / 10800000 + 69.184 / 86400 ^ 2)) ∧
    (2458338.5 + 3661111 / 10800000 + 69.184 / 86400 ^ 2 : ℚ) + 7 < 2458345.839258 :=
  ⟨parse_2018_value, by norm_num⟩

/-- C4 (amended): `new Epoch('2018-08-08T08:08:08.888Z')` stores
`julianTT = 2458338.5 + 3661111/10800000 + 69.184/86400^2` — the UTC Julian
date 2458338.838992 of that instant plus `TT_MINUS_UTC = 69.184/86400^2` days
(about 0.0008 s, not about 69.18 s, because of the double unit conversion in
the constant), so `julianTT < 2458339`, and `toString()` on that Epoch
returns exactly '2018-08-08T08:08:08.888Z'. -/
theorem epoch_2018_stores_utc_plus_offset_and_roundtrips :
    epochJulianTTFromString (String.toList "2018-08-08T08:08:08.888Z") =
      Except.ok (some (2458338.5 + 3661111 / 10800000 + 69.184 / 86400 ^ 2)) ∧
    Epoch.toString ⟨2458338.5 + 3661111 / 10800000 + 69.184 / 86400 ^ 2⟩ =
      String.toList "2018-08-08T08:08:08.888Z" ∧
    (2458338.5 + 3661111 / 10800000 + 69.184 / 86400 ^ 2 : ℚ) < 2458339 := by
  refine ⟨parse_2018_value, ?_, by norm_num⟩
  · have hutc : julianTTtoUTC (2458338.5 + 3661111 / 10800000 + 69.184 / 86400 ^ 2) =
        2458338.5 + 3661111 / 10800000 := by
      unfold julianTTtoUTC; rw [TT_const_value]; ring
    have h := epochToString_of_calendar
      (2458338.5 + 3661111 / 10800000 + 69.184 / 86400 ^ 2) 2018 8 8 8 8 8 888
      (by rw [hutc, jcal_2018_08_08]; norm_num [CalendarDate.mk.injEq])
      (by norm_num) (by norm_num)
    rw [h]
    decide

/-- C6 counterexample: the input string '2018T08:08:08.888Z' is missing the
'-' separators, yet the constructor does not fail: `dateArray[1]` is
`undefined`, `Number.parseFloat(undefined)` is `NaN` (not an exception), and
an Epoch whose `julianTT` is `NaN` (modelled `Except.ok none`) is returned. -/
theorem missing_dash_returns_epoch :
    epochJulianTTFromString (String.toList "2018T08:08:08.888Z") = Except.ok none :=
  parse_missing_dash

/-- C6 (amended): a string with no 'T' separator makes the constructor throw
(`undefined.split`), and a string whose time part has fewer than three
':'-separated fields makes it throw (`undefined.replace`); but a string
missing only the '-' separators is accepted and produces an Epoch whose
`julianTT` is `NaN` (`Except.ok none` in the embedding), because
`parseFloat(undefined)` is `NaN` rather than an error. -/
theorem constructor_error_behaviour :
    (∀ s : JSStr, 'T' ∉ s →
      epochJulianTTFromString s =
        Except.error "TypeError: undefined has no method split") ∧
    (∀ pre post : JSStr, 'T' ∉ pre → 'T' ∉ post → (splitOnChar ':' post).length ≤ 2 →
      epochJulianTTFromString (pre ++ 'T' :: post) =
        Except.error "TypeError: undefined has no method replace") ∧
    epochJulianTTFromString (String.toList "2018T08:08:08.888Z") = Except.ok none := by
  refine ⟨?_, ?_, parse_missing_dash⟩
  · intro s h
    simp [epochJulianTTFromString, splitOnChar_not_mem 'T' s h]
  · intro pre post h1 h2 hlen
    simp only [epochJulianTTFromString, splitOnChar_append 'T' pre post h1,
      splitOnChar_not_mem 'T' post h2]
    simp [List.getElem?_eq_none hlen]

/-- Witness for the amended C6 theorem: a string without 'T' throws at
`undefined.split`, and a string with 'T' but no ':' throws at
`undefined.replace`. -/
theorem constructor_error_witness :
    epochJulianTTFromString (String.toList "20180808") =
      Except.error "TypeError: undefined has no method split" ∧
    epochJulianTTFromString (String.toList "2018-08-08" ++ 'T' :: String.toList "080808.888Z") =
      Except.error "TypeError: undefined has no method replace" :=
  ⟨constructor_error_behaviour.1 (String.toList "20180808") (by decide),
   constructor_error_behaviour.2.1 (String.toList "2018-08-08")
     (String.toList "080808.888Z") (by decide) (by decide) (by decide)⟩

/-- C7: `plusDays` builds a fresh Epoch through `fromJulianTT` whose
`julianTT` is the receiver's `julianTT` plus `days`; the receiver is not
written to (the embedding is a pure function of the receiver).  Concretely,
`plusDays(1)` on the Epoch built from '2018-08-08T08:08:08.888Z' prints
'2018-08-09T08:08:08.888Z'. -/
theorem plusDays_returns_new_epoch_with_sum :
    (∀ (e : Epoch) (days : ℚ),
      e.plusDays days = Epoch.fromJulianTT (e.julianTT + days) ∧
      (e.plusDays days).julianTT = e.julianTT + days) ∧
    epochJulianTTFromString (String.toList "2018-08-08T08:08:08.888Z") =
      Except.ok (some (2458338.5 + 3661111 / 10800000 + 69.184 / 86400 ^ 2)) ∧
    Epoch.toString
      (Epoch.plusDays ⟨2458338.5 + 3661111 / 10800000 + 69.184 / 86400 ^ 2⟩ 1) =
      String.toList "2018-08-09T08:08:08.888Z" := by
  refine ⟨fun e days => ⟨rfl, rfl⟩, parse_2018_value, ?_⟩
  · have hplus : Epoch.plusDays ⟨2458338.5 + 3661111 / 10800000 + 69.184 / 86400 ^ 2⟩ 1 =
        (⟨2458338.5 + 3661111 / 10800000 + 69.184 / 86400 ^ 2 + 1⟩ : Epoch) := rfl
    rw [hplus]
    have hutc : julianTTtoUTC (2458338.5 + 3661111 / 10800000 + 69.184 / 86400 ^ 2 + 1) =
        2458339.5 + 3661111 / 10800000 := by
      unfold julianTTtoUTC; rw [TT_const_value]; ring
    have h := epochToString_of_calendar
      (2458338.5 + 3661111 / 10800000 + 69.184 / 86400 ^ 2 + 1) 2018 8 9 8 8 8 888
      (by rw [hutc, jcal_2018_08_09]; norm_num [CalendarDate.mk.injEq])
      (by norm_num) (by norm_num)
    rw [h]
    decide

/-- C5: `daysToHMS` decomposes a fractional day by flooring toward negative
infinity at each step (hours, then minutes) and keeping the exact remainder
as seconds, so `hmsToDays` recomposes the original value; on the negative
input `-0.6` the hour field is `⌊-14.4⌋ = -15` (truncation would give `-14`),
and `-0.5` decomposes into `(-12, 0, 0)`. -/
theorem daysToHMS_floors_and_recomposes :
    (∀ d : ℚ, (daysToHMS d).hours = ⌊daysToHours d⌋ ∧
      (daysToHMS d).minutes = ⌊hoursToMinutes (daysToHours d - ((daysToHMS d).hours : ℚ))⌋ ∧
      hmsToDays ((daysToHMS d).hours : ℚ) ((daysToHMS d).minutes : ℚ)
        (daysToHMS d).seconds = d) ∧
    daysToHMS (-(1 : ℚ) / 2) = ⟨-12, 0, 0⟩ ∧
    daysToHMS (-(6 : ℚ) / 10) = ⟨-15, 36, 0⟩ := by
  refine ⟨fun d => ⟨rfl, ?_, hmsToDays_daysToHMS d⟩, ?_, ?_⟩
  · rw [daysToHMS_def]
    simp only [daysToHours, hoursToMinutes, DAYS_TO_HOURS, HOURS_TO_MINUTES]
  · have h1 : (-(1 : ℚ) / 2) * 24 = ((-12 : ℤ) : ℚ) := by norm_num
    rw [daysToHMS_def, h1, Int.floor_intCast]
    norm_num
  · have h1 : ⌊(-(6 : ℚ) / 10) * 24⌋ = -15 :=
      Int.floor_eq_iff.2 (by constructor <;> norm_num)
    rw [daysToHMS_def, h1]
    have h2 : ((-(6 : ℚ) / 10) * 24 - ((-15 : ℤ) : ℚ)) * 60 = ((36 : ℤ) : ℚ) := by
      norm_num
    rw [h2, Int.floor_intCast]
    norm_num

/-- C8: the Greenwich Mean Sidereal Time of any Epoch (including Epochs with
negative Julian TT), converted from the modulo-360 degree value to radians,
lies in the half-open interval [0, 2 pi).  The GMST pipeline is modelled from
spec section 4.3 because its source file is not under src/. -/
theorem gmst_in_range (e : Epoch) :
    0 ≤ (e.gmstDegrees : ℝ) * Real.pi / 180 ∧
    (e.gmstDegrees : ℝ) * Real.pi / 180 < 2 * Real.pi := by
  obtain ⟨hx, hx'⟩ := mod360_range
    (100.4606184 + 36000.77004 * (((⌊julianToMJD (julianTTtoUTC e.julianTT)⌋ : ℚ) +
      MJD_ZERO - J2000) * JD_RECIPROCAL_4) +
     0.000387933 * ((((⌊julianToMJD (julianTTtoUTC e.julianTT)⌋ : ℚ) +
      MJD_ZERO - J2000) * JD_RECIPROCAL_4)) ^ 2 +
     360.98564724 * (julianToMJD (julianTTtoUTC e.julianTT) -
      ((⌊julianToMJD (julianTTtoUTC e.julianTT)⌋ : ℚ))))
  have hg : 0 ≤ e.gmstDegrees ∧ e.gmstDegrees < 360 := ⟨hx, hx'⟩
  have h0 : (0 : ℝ) ≤ (e.gmstDegrees : ℝ) := by exact_mod_cast hg.1
  have h1 : (e.gmstDegrees : ℝ) < 360 := by exact_mod_cast hg.2
  have hpi := Real.pi_pos
  constructor
  · positivity
  · nlinarith

/-- C9: `getJulianCenturiesPastJ2000` returns `(julianTT - 2451545) / 36525`
(the source multiplies by the reciprocal constant `JD_RECIPROCAL_4`, which is
the same rational number), and at the J2000 epoch itself it returns zero. -/
theorem julianCenturies_past_J2000_correct :
    (∀ e : Epoch, e.getJulianCenturiesPastJ2000 = (e.julianTT - 2451545.0) / 36525) ∧
    (Epoch.fromJulianTT 2451545.0).getJulianCenturiesPastJ2000 = 0 := by
  constructor
  · intro e
    unfold Epoch.getJulianCenturiesPastJ2000 J2000 JD_RECIPROCAL_4 DAYS_IN_JULIAN_CENTURY
    ring
  · unfold Epoch.getJulianCenturiesPastJ2000 Epoch.fromJulianTT J2000
    norm_num

/-- C10: for every (finite) Julian date, the time fields of
`julianToCalendar jd` are in range: hour in 0..23, minute in 0..59 and
second in [0, 60), because they are produced by `daysToHMS` applied to the
fractional part `day - floor(day)`, which lies in [0, 1). -/
theorem julianToCalendar_time_fields_in_range (jd : ℚ) :
    0 ≤ (julianToCalendar jd).hour ∧ (julianToCalendar jd).hour ≤ 23 ∧
    0 ≤ (julianToCalendar jd).minute ∧ (julianToCalendar jd).minute ≤ 59 ∧
    0 ≤ (julianToCalendar jd).second ∧ (julianToCalendar jd).second < 60 := by
  unfold julianToCalendar
  exact daysToHMS_range _ (sub_floor_range _).1 (sub_floor_range _).2

end OtkTime
